import Mathlib

/-!
Shallow embedding of `reset_password.py` (PSForever password reset tool).

Conventions of the embedding:
* Python byte strings are `List Nat` (each entry one byte).
* `bcrypt` is modelled symbolically: a hash records the exact input bytes and
  the salt parameters (`rounds`, version marker, salt value); `checkpw`
  compares the candidate bytes against the recorded input.  This captures the
  plumbing (what is hashed, with which parameters) without the bcrypt core.
* SHA-256 appears as a function parameter `sha256 : List Nat → List Nat`
  (the raw 32-byte digest); `hexdigest` = `bytesToHex ∘ sha256`.
* The database is a `List Account`; SQL statements become list operations and
  the psycopg2 transaction becomes an explicit pending state that `commit`
  makes durable and `rollback` discards, with an explicit failure point.
* Interactive input (`input`, `getpass.getpass`) becomes explicit input
  streams (`List String` or `Nat → String`), one entry per prompt.
-/

/-- One byte of the UTF-8 encoding of a character (RFC 3629 arithmetic,
mirroring Python's `str.encode('utf-8')` for each code point). -/
def utf8EncodeChar (c : Char) : List Nat :=
  let n := c.toNat
  if n < 128 then [n]
  else if n < 2048 then [192 + n / 64, 128 + n % 64]
  else if n < 65536 then [224 + n / 4096, 128 + (n / 64) % 64, 128 + n % 64]
  else [240 + n / 262144, 128 + (n / 4096) % 64, 128 + (n / 64) % 64, 128 + n % 64]

/-- `s.encode('utf-8')` : the UTF-8 bytes of a string. -/
def utf8Bytes (s : String) : List Nat :=
  (s.data.map utf8EncodeChar).flatten

/-- Lowercase hexadecimal digit for a value below 16 (as produced by
Python's `hexdigest()`). -/
def hexDigit (n : Nat) : Char :=
  if n < 10 then Char.ofNat (48 + n) else Char.ofNat (97 + (n - 10))

/-- The two lowercase hex characters of one byte. -/
def byteToHexChars (b : Nat) : List Char :=
  [hexDigit (b / 16 % 16), hexDigit (b % 16)]

/-- Lowercase hex encoding of a byte string: Python's `hexdigest()` rendering. -/
def bytesToHex (bs : List Nat) : String :=
  String.mk ((bs.map byteToHexChars).flatten)

/-- Python `str.strip()` whitespace test (space, tab, LF, CR, VT, FF). -/
def isPySpace (c : Char) : Bool :=
  (c == ' ') || (c == '\t') || (c == '\n') || (c == '\r') ||
  (c == Char.ofNat 11) || (c == Char.ofNat 12)

/-- Python `str.strip()`: drop leading and trailing whitespace. -/
def pyStrip (s : String) : String :=
  String.mk (((s.data.dropWhile isPySpace).reverse.dropWhile isPySpace).reverse)

/-- Python `str.lower()` (ASCII case folding, as both `str.lower` and SQL
`LOWER` behave on the account names this tool handles). -/
def pyLower (s : String) : String :=
  String.mk (s.data.map Char.toLower)

/-- A bcrypt salt as produced by `bcrypt.gensalt(rounds=…, prefix=…)`:
the work factor, the version marker (the `2a` in `$2a$…`), and the random
salt value (kept abstract as a number). -/
structure BcryptSalt where
  rounds : Nat
  version : String
  saltValue : Nat
deriving DecidableEq

/-- `bcrypt.gensalt(rounds, prefix)` for a given random salt value. -/
def gensalt (rounds : Nat) (version : String) (saltValue : Nat) : BcryptSalt :=
  ⟨rounds, version, saltValue⟩

/-- A bcrypt hash, modelled symbolically: it records the exact input bytes
handed to `bcrypt.hashpw` together with the salt parameters. -/
structure BcryptHash where
  input : List Nat
  rounds : Nat
  version : String
  saltValue : Nat
deriving DecidableEq

/-- `bcrypt.hashpw(data, salt)`. -/
def hashpw (data : List Nat) (s : BcryptSalt) : BcryptHash :=
  ⟨data, s.rounds, s.version, s.saltValue⟩

/-- `bcrypt.checkpw(data, hash)`: verification succeeds exactly when the
candidate bytes equal the bytes that were hashed. -/
def checkpw (data : List Nat) (h : BcryptHash) : Bool :=
  data == h.input

/-- `generate_launcher_hash(username, password)` from `reset_password.py`
(lines 39–60).  Stage 1: SHA-256 over the UTF-8 bytes of
`username + password`, rendered as lowercase hex.  Stage 2: bcrypt of the
UTF-8 bytes of that hex string with `rounds=12, prefix=b"2a"`.  `sha256` is
the raw digest function, a parameter of the embedding; `saltValue` stands
for the randomness of `gensalt`. -/
def generate_launcher_hash (sha256 : List Nat → List Nat)
    (username password : String) (saltValue : Nat) : BcryptHash :=
  let salted := utf8Bytes (username ++ password)
  let sha256_hash := bytesToHex (sha256 salted)
  hashpw (utf8Bytes sha256_hash) (gensalt 12 "2a" saltValue)

/-- `generate_testclient_hash(password)` (lines 63–73): bcrypt of the UTF-8
bytes of the plaintext password, `rounds=12, prefix=b"2a"`. -/
def generate_testclient_hash (password : String) (saltValue : Nat) : BcryptHash :=
  hashpw (utf8Bytes password) (gensalt 12 "2a" saltValue)

/-- A row of the `account` table: `id`, `username` (stored casing),
`inactive`, and the two hash columns `password` (launcher hash) and
`passhash` (test-client hash), both stored as text. -/
structure Account where
  id : Nat
  username : String
  inactive : Bool
  password : String
  passhash : String
deriving DecidableEq

/-- `find_account(conn, username_search)` (lines 157–178): the query
`SELECT id, username, inactive FROM account WHERE LOWER(username) =
LOWER(%s)` with `fetchone()`: the first row whose lowercased username equals
the lowercased search string, or `None`. -/
def find_account (db : List Account) (username_search : String) :
    Option (Nat × String × Bool) :=
  match db.find? (fun a => pyLower a.username == pyLower username_search) with
  | some a => some (a.id, a.username, a.inactive)
  | none => none

/-- Pending-transaction write of the `password` column for the matching id
(the first assignment of the single `UPDATE` statement). -/
def setPasswordField (db : List Account) (account_id : Nat) (v : String) :
    List Account :=
  db.map (fun a => if a.id = account_id then { a with password := v } else a)

/-- Pending-transaction write of the `passhash` column for the matching id
(the second assignment of the single `UPDATE` statement). -/
def setPasshashField (db : List Account) (account_id : Nat) (v : String) :
    List Account :=
  db.map (fun a => if a.id = account_id then { a with passhash := v } else a)

/-- Where, if anywhere, the database raises during `update_password`:
nowhere, at the start of the `UPDATE`, between the two column writes, or at
`conn.commit()`. -/
inductive UpdateFailure where
  | ok
  | atExecute
  | afterFirstField
  | atCommit
deriving DecidableEq

/-- The `UPDATE account SET password = %s, passhash = %s WHERE id = %s`
statement run inside the open transaction: it returns the error raised (if
any) together with the pending state the transaction reached — untouched,
with only the first column written, or with both columns written. -/
def executeUpdate (pending : List Account) (account_id : Nat)
    (launcher_hash testclient_hash : String) (failure : UpdateFailure) :
    Except String Unit × List Account :=
  match failure with
  | .atExecute => (.error "update failed", pending)
  | .afterFirstField =>
      (.error "second column write failed",
        setPasswordField pending account_id launcher_hash)
  | _ =>
      (.ok (),
        setPasshashField (setPasswordField pending account_id launcher_hash)
          account_id testclient_hash)

/-- `update_password(conn, account_id, launcher_hash, testclient_hash)`
(lines 181–205).  On any exception the handler calls `conn.rollback()` —
the pending state is discarded and the durable database is returned
unchanged — and the function returns `False`; otherwise `conn.commit()`
makes the pending state durable and the function returns `True`. -/
def update_password (db : List Account) (account_id : Nat)
    (launcher_hash testclient_hash : String) (failure : UpdateFailure) :
    Bool × List Account :=
  match executeUpdate db account_id launcher_hash testclient_hash failure with
  | (.error _, _) => (false, db)
  | (.ok _, pending) =>
      match failure with
      | .atCommit => (false, db)
      | _ => (true, pending)

/-- `get_password_input(min_length)` (lines 208–223): keep prompting until
an entry of at least `min_length` characters arrives; return the first such
entry.  `inputs` is the stream of entries typed at the prompt; `none` means
the stream ran out while the loop was still re-prompting. -/
def get_password_input (inputs : List String) (min_length : Nat) : Option String :=
  match inputs with
  | [] => none
  | p :: rest =>
      if p.length < min_length then get_password_input rest min_length
      else some p

/-- The `for attempt in range(max_attempts)` loop of `confirm_password`:
`attempt` is the index of the next confirmation prompt, the last argument
the number of attempts still allowed. -/
def confirmAttempts (original : String) (inputs : Nat → String) :
    Nat → Nat → Option String
  | _, 0 => none
  | attempt, remaining + 1 =>
      if inputs attempt = original then some (inputs attempt)
      else confirmAttempts original inputs (attempt + 1) remaining

/-- `confirm_password(original, max_attempts)` (lines 226–248): up to
`max_attempts` confirmation prompts; returns the confirmation as soon as one
matches `original`, `None` once all attempts mismatched. -/
def confirm_password (original : String) (inputs : Nat → String)
    (max_attempts : Nat) : Option String :=
  confirmAttempts original inputs 0 max_attempts

/-- The terminal input consumed by one iteration of `main`'s password loop:
the entries typed at the `New password:` prompt and the stream for the
`Confirm password:` prompts. -/
structure PasswordRound where
  entries : List String
  confirmInputs : Nat → String

/-- `main`'s step-2/3 loop (lines 313–324): collect a password, confirm it;
on failed confirmation discard the candidate and start over with the next
round of input. -/
def collectPasswordLoop : List PasswordRound → Option String
  | [] => none
  | round :: rest =>
      match get_password_input round.entries 6 with
      | none => none
      | some password =>
          match confirm_password password round.confirmInputs 3 with
          | some confirmed => some confirmed
          | none => collectPasswordLoop rest

/-- The dry-run confirmation branch of `main` (lines 335–347): `true` when
the operator response makes the tool print `Aborted.` and exit 0.  Inactive
account: `Continue? [y/N]` aborts on empty input or any input not starting
with `y`.  Active account: `Confirm password reset? [Y/n]` aborts only on
input starting with `n`. -/
def dryRunAborts (is_inactive : Bool) (response : String) : Bool :=
  let confirm := pyLower (pyStrip response)
  if is_inactive then
    match confirm.data with
    | [] => true
    | c :: _ => c != 'y'
  else
    match confirm.data with
    | [] => false
    | c :: _ => c == 'n'

/-- The text form in which a bcrypt hash is stored in the database
(`hash.decode('utf-8')` of the `$2a$12$…` output): a rendering that keeps
the version marker, work factor, salt and input digest. -/
def renderHash (h : BcryptHash) : String :=
  "$" ++ h.version ++ "$" ++ toString h.rounds ++ "$" ++ toString h.saltValue
    ++ "$" ++ bytesToHex h.input

/-- The body of the successful-reset audit line (line 363's f-string). -/
def auditMessage (account_id : Nat) (username : String) : String :=
  "Password reset for account ID: " ++ toString account_id
    ++ ", username: " ++ username

/-- One line of `password_reset.log`: the logger's
`%(asctime)s - %(message)s` format applied to `auditMessage`. -/
def auditRecord (timestamp : String) (account_id : Nat) (username : String) :
    String :=
  timestamp ++ " - " ++ auditMessage account_id username

/-- How a run of `main`'s final phase ends: `Aborted.` then `sys.exit(0)`;
successful reset (normal return, exit status 0); failed update,
`sys.exit(1)`. -/
inductive RunOutcome where
  | abortedExit0
  | successExit0
  | failedExit1
deriving DecidableEq

/-- Observable result of `main`'s final phase: the process outcome, the
durable database, and the audit lines appended to `password_reset.log`. -/
structure TailResult where
  outcome : RunOutcome
  db : List Account
  audit : List String
deriving DecidableEq

/-- Steps 4–6 of `main` (lines 326–366), after the account is resolved and
the password confirmed: dry-run confirmation, hash generation (note line 352
passes `exact_username`, the stored casing), database update, and the audit
log write that only the success branch performs. -/
def mainTail (db : List Account) (account_id : Nat) (exact_username : String)
    (is_inactive : Bool) (response : String) (password : String)
    (sha256 : List Nat → List Nat) (salt1 salt2 : Nat)
    (failure : UpdateFailure) (timestamp : String) : TailResult :=
  if dryRunAborts is_inactive response then
    ⟨.abortedExit0, db, []⟩
  else
    let launcher_hash := renderHash (generate_launcher_hash sha256 exact_username password salt1)
    let testclient_hash := renderHash (generate_testclient_hash password salt2)
    let result := update_password db account_id launcher_hash testclient_hash failure
    if result.1 then
      ⟨.successExit0, result.2, [auditRecord timestamp account_id exact_username]⟩
    else
      ⟨.failedExit1, result.2, []⟩

/-- How one `psycopg2.connect` call inside `connect_database` ends, by the
error-message classification of lines 112–151. -/
inductive ConnAttemptResult where
  | success
  | dbNotExist
  | authFailed
  | refused
  | otherError
  | unexpected
deriving DecidableEq

/-- The classifications `connect_database` recovers from by re-prompting and
retrying (missing database, failed authentication, unknown operational
error); `refused` and `unexpected` exit immediately instead. -/
def recoverableResult : ConnAttemptResult → Bool
  | .dbNotExist => true
  | .authFailed => true
  | .otherError => true
  | _ => false

/-- The environment `connect_database` interacts with: the outcome of the
k-th connection attempt, and the operator's inputs at the k-th database-name
and password re-prompts. -/
structure ConnectEnv where
  attemptResult : Nat → ConnAttemptResult
  dbNameInput : Nat → String
  passwordInput : Nat → String

/-- The parameter set handed to one `psycopg2.connect` call. -/
structure ConnParams where
  host : String
  port : Nat
  user : String
  database : String
  password : String
deriving DecidableEq

/-- How `connect_database` returns: a live connection (with the parameters
that worked) or `sys.exit(code)`. -/
inductive ConnectResult where
  | connected (params : ConnParams)
  | fatalExit (code : Nat)
deriving DecidableEq

/-- Lines 118–120: the re-prompted database name is stripped and, when
empty, replaced by `'psforever'`. -/
def resolveDbName (raw : String) : String :=
  let database := pyStrip raw
  if database = "" then "psforever" else database

/-- The `while attempt < max_attempts` loop of `connect_database`
(lines 100–154).  The third argument is the current attempt index, the last
`max_attempts - attempt` (how many attempts remain); when it reaches zero
the loop falls through to `sys.exit(1)` (lines 153–154).  Also returns the
trace of parameter sets used, one entry per connection attempt made. -/
def connectLoop (env : ConnectEnv) :
    ConnParams → Nat → Nat → ConnectResult × List ConnParams
  | _, _, 0 => (.fatalExit 1, [])
  | params, attempt, remaining + 1 =>
      match env.attemptResult attempt with
      | .success => (.connected params, [params])
      | .dbNotExist =>
          let next := connectLoop env
            { params with database := resolveDbName (env.dbNameInput attempt) }
            (attempt + 1) remaining
          (next.1, params :: next.2)
      | .authFailed =>
          let next := connectLoop env
            { params with password := env.passwordInput attempt }
            (attempt + 1) remaining
          (next.1, params :: next.2)
      | .refused => (.fatalExit 1, [params])
      | .otherError =>
          let next := connectLoop env params (attempt + 1) remaining
          (next.1, params :: next.2)
      | .unexpected => (.fatalExit 1, [params])

/-- `connect_database(host, port, user, database, password=None)`
(lines 76–154): default the password to the username when none is supplied
(lines 97–98), then run the retry loop with `max_attempts = 3`. -/
def connect_database (env : ConnectEnv) (host : String) (port : Nat)
    (user database : String) (password : Option String) :
    ConnectResult × List ConnParams :=
  let pw := match password with
    | none => user
    | some p => p
  connectLoop env ⟨host, port, user, database, pw⟩ 0 3

lemma hexDigit_mem_lowercase : ∀ m, m < 16 → hexDigit m ∈ ("0123456789abcdef").data := by
  decide

lemma bytesToHex_lowercase (bs : List Nat) :
    ∀ c ∈ (bytesToHex bs).data, c ∈ ("0123456789abcdef").data := by
  intro c hc
  have hc2 : c ∈ (bs.map byteToHexChars).flatten := hc
  rw [List.mem_flatten] at hc2
  obtain ⟨l, hl, hcl⟩ := hc2
  rw [List.mem_map] at hl
  obtain ⟨b, _, rfl⟩ := hl
  simp only [byteToHexChars, List.mem_cons, List.not_mem_nil, or_false] at hcl
  rcases hcl with rfl | rfl
  · exact hexDigit_mem_lowercase _ (Nat.mod_lt _ (by norm_num))
  · exact hexDigit_mem_lowercase _ (Nat.mod_lt _ (by norm_num))

/-- C3: `generate_testclient_hash` bcrypt-hashes the UTF-8 bytes of the
plaintext password directly, with work factor 12 and version marker "2a",
and bcrypt verification of the plaintext password against the returned hash
succeeds. -/
theorem generate_testclient_hash_spec (password : String) (saltValue : Nat) :
    (generate_testclient_hash password saltValue).input = utf8Bytes password ∧
    (generate_testclient_hash password saltValue).rounds = 12 ∧
    (generate_testclient_hash password saltValue).version = "2a" ∧
    checkpw (utf8Bytes password) (generate_testclient_hash password saltValue) = true := by
  refine ⟨rfl, rfl, rfl, ?_⟩
  simp [checkpw, generate_testclient_hash, hashpw]

/-- C2: `generate_launcher_hash` returns the bcrypt hash, with work factor
12 and version marker "2a", of the lowercase-hex encoding of the SHA-256
digest of the UTF-8 bytes of `username + password`. -/
theorem generate_launcher_hash_spec (sha256 : List Nat → List Nat)
    (username password : String) (saltValue : Nat) :
    (generate_launcher_hash sha256 username password saltValue).input
        = utf8Bytes (bytesToHex (sha256 (utf8Bytes (username ++ password)))) ∧
    (generate_launcher_hash sha256 username password saltValue).rounds = 12 ∧
    (generate_launcher_hash sha256 username password saltValue).version = "2a" ∧
    (generate_launcher_hash sha256 username password saltValue).saltValue = saltValue ∧
    checkpw (utf8Bytes (bytesToHex (sha256 (utf8Bytes (username ++ password)))))
        (generate_launcher_hash sha256 username password saltValue) = true ∧
    ∀ c ∈ (bytesToHex (sha256 (utf8Bytes (username ++ password)))).data,
        c ∈ ("0123456789abcdef").data := by
  refine ⟨rfl, rfl, rfl, rfl, ?_, bytesToHex_lowercase _⟩
  simp [checkpw, generate_launcher_hash, hashpw]

/-- Witness for C2 at a concrete digest function and inputs. -/
theorem generate_launcher_hash_spec_witness :
    'f' ∈ ("0123456789abcdef").data ∧
    (generate_launcher_hash (fun _ => [0, 255]) "Ab" "cd" 7).rounds = 12 := by
  have h := generate_launcher_hash_spec (fun _ => [0, 255]) "Ab" "cd" 7
  exact ⟨h.2.2.2.2.2 'f' (by decide), h.2.1⟩

/-- C4: `find_account` compares both sides lowercased: any casing variant of
the search string gives the same result, `none` appears exactly when no row
matches case-insensitively, and a hit returns the stored row's id,
exact-case username and inactive flag. -/
theorem find_account_case_insensitive (db : List Account) (s : String) :
    (∀ s2, pyLower s2 = pyLower s → find_account db s2 = find_account db s) ∧
    (find_account db s = none ↔ ∀ a ∈ db, pyLower a.username ≠ pyLower s) ∧
    (∀ i u b, find_account db s = some (i, u, b) →
      ∃ a, a ∈ db ∧ a.id = i ∧ a.username = u ∧ a.inactive = b ∧
        pyLower a.username = pyLower s) := by
  refine ⟨?_, ?_, ?_⟩
  · intro s2 h
    simp only [find_account, h]
  · constructor
    · intro h a ha hlow
      unfold find_account at h
      cases hf : db.find? (fun a => pyLower a.username == pyLower s) with
      | none =>
          rw [List.find?_eq_none] at hf
          exact hf a ha (by simp [hlow])
      | some a0 => rw [hf] at h; cases h
    · intro h
      unfold find_account
      have hf : db.find? (fun a => pyLower a.username == pyLower s) = none := by
        rw [List.find?_eq_none]
        intro a ha
        simp [h a ha]
      rw [hf]
  · intro i u b h
    unfold find_account at h
    cases hf : db.find? (fun a => pyLower a.username == pyLower s) with
    | none => rw [hf] at h; cases h
    | some a0 =>
        rw [hf] at h
        have hmem := List.mem_of_find?_eq_some hf
        have hpred := List.find?_some hf
        simp only [beq_iff_eq] at hpred
        cases h
        exact ⟨a0, hmem, rfl, rfl, rfl, hpred⟩

/-- Witness for C4: stored account `Foo`, searched as `foo` and `FOO`. -/
theorem find_account_case_insensitive_witness :
    find_account ([⟨1, "Foo", false, "x", "y"⟩] : List Account) "foo"
      = find_account ([⟨1, "Foo", false, "x", "y"⟩] : List Account) "FOO" ∧
    (∃ a : Account, a ∈ ([⟨1, "Foo", false, "x", "y"⟩] : List Account) ∧
      a.id = 1 ∧ a.username = "Foo" ∧ a.inactive = false ∧
      pyLower a.username = pyLower "FOO") := by
  have h := find_account_case_insensitive ([⟨1, "Foo", false, "x", "y"⟩] : List Account) "FOO"
  exact ⟨h.1 "foo" (by decide), h.2.2 1 "Foo" false (by decide)⟩

lemma get_password_input_skips_shorts (shorts : List String) (good : String)
    (rest : List String) (hs : ∀ s ∈ shorts, s.length < 6)
    (hg : 6 ≤ good.length) :
    get_password_input (shorts ++ good :: rest) 6 = some good := by
  induction shorts with
  | nil =>
      have : ¬ good.length < 6 := by omega
      simp [get_password_input, this]
  | cons s ss ih =>
      have hshort : s.length < 6 := hs s (List.mem_cons_self s ss)
      simp only [List.cons_append, get_password_input, if_pos hshort]
      exact ih (fun t ht => hs t (List.mem_cons_of_mem s ht))

/-- C7: `get_password_input` re-prompts on every entry shorter than 6
characters, with no bound on the number of re-prompts, and returns the first
entry of length at least 6. -/
theorem get_password_input_min_length (shorts : List String) (good : String)
    (rest : List String) :
    ((∀ s ∈ shorts, s.length < 6) → 6 ≤ good.length →
      get_password_input (shorts ++ good :: rest) 6 = some good) ∧
    (∀ p more, p.length < 6 →
      get_password_input (p :: more) 6 = get_password_input more 6) ∧
    (∀ p more, 6 ≤ p.length →
      get_password_input (p :: more) 6 = some p) := by
  refine ⟨fun hs hg => get_password_input_skips_shorts shorts good rest hs hg, ?_, ?_⟩
  · intro p more hp
    simp [get_password_input, if_pos hp]
  · intro p more hp
    have : ¬ p.length < 6 := by omega
    simp [get_password_input, this]

/-- Witness for C7: the 5-character entry `abcde` is rejected and the
6-character entry `abcdef` is accepted. -/
theorem get_password_input_min_length_witness :
    get_password_input ["abcde", "abcdef"] 6 = some "abcdef" ∧
    get_password_input ["abcde"] 6 = get_password_input [] 6 ∧
    get_password_input ["abcdef"] 6 = some "abcdef" := by
  have h := get_password_input_min_length ["abcde"] "abcdef" []
  exact ⟨h.1 (by decide) (by decide), h.2.1 "abcde" [] (by decide),
    h.2.2 "abcdef" [] (by decide)⟩

/-- C6: `confirm_password` allows at most 3 attempts — its result depends
only on the first three confirmation entries —, returns the candidate as
soon as one matches (in particular at attempt 2), returns `none` after 3
consecutive mismatches, and then `main`'s loop discards the candidate and
returns to password collection. -/
theorem confirm_password_retry_spec (original : String) (inputs : Nat → String)
    (round1 : PasswordRound) (rounds : List PasswordRound) :
    ((∃ i, i < 3 ∧ inputs i = original) →
      confirm_password original inputs 3 = some original) ∧
    (inputs 0 ≠ original → inputs 1 = original →
      confirm_password original inputs 3 = some original) ∧
    (inputs 0 ≠ original → inputs 1 ≠ original → inputs 2 ≠ original →
      confirm_password original inputs 3 = none) ∧
    (∀ inputs2 : Nat → String, inputs 0 = inputs2 0 → inputs 1 = inputs2 1 →
      inputs 2 = inputs2 2 →
      confirm_password original inputs 3 = confirm_password original inputs2 3) ∧
    (∀ password, get_password_input round1.entries 6 = some password →
      confirm_password password round1.confirmInputs 3 = none →
      collectPasswordLoop (round1 :: rounds) = collectPasswordLoop rounds) := by
  refine ⟨?_, ?_, ?_, ?_, ?_⟩
  · rintro ⟨i, hi, hmatch⟩
    by_cases h0 : inputs 0 = original
    · simp [confirm_password, confirmAttempts, h0]
    · by_cases h1 : inputs 1 = original
      · simp [confirm_password, confirmAttempts, h0, h1]
      · by_cases h2 : inputs 2 = original
        · simp [confirm_password, confirmAttempts, h0, h1, h2]
        · interval_cases i
          · exact absurd hmatch h0
          · exact absurd hmatch h1
          · exact absurd hmatch h2
  · intro h0 h1
    simp [confirm_password, confirmAttempts, h0, h1]
  · intro h0 h1 h2
    simp [confirm_password, confirmAttempts, h0, h1, h2]
  · intro inputs2 e0 e1 e2
    simp only [confirm_password, confirmAttempts, e0, e1, e2]
  · intro password hget hconf
    simp [collectPasswordLoop, hget, hconf]

/-- Witness for C6: a match at attempt 2 succeeds; three mismatches return
`none` and make the collection loop move on to the next round. -/
theorem confirm_password_retry_spec_witness :
    confirm_password "pw1234" (fun i => if i = 1 then "pw1234" else "nope") 3
      = some "pw1234" ∧
    confirm_password "pw1234" (fun _ => "nope") 3 = none ∧
    collectPasswordLoop (⟨["pw1234"], fun _ => "nope"⟩ :: []) = collectPasswordLoop [] := by
  have h1 := confirm_password_retry_spec "pw1234"
    (fun i => if i = 1 then "pw1234" else "nope") ⟨[], fun _ => ""⟩ []
  have h2 := confirm_password_retry_spec "pw1234" (fun _ => "nope")
    ⟨["pw1234"], fun _ => "nope"⟩ []
  exact ⟨h1.2.1 (by decide) (by decide),
    h2.2.2.1 (by decide) (by decide) (by decide),
    h2.2.2.2.2 "pw1234" (by decide) (by decide)⟩

lemma setFields_eq_map (db : List Account) (account_id : Nat) (lh th : String) :
    setPasshashField (setPasswordField db account_id lh) account_id th
      = db.map (fun a => if a.id = account_id then
          { a with password := lh, passhash := th } else a) := by
  induction db with
  | nil => rfl
  | cons a as ih =>
      simp only [setPasswordField, setPasshashField, List.map_cons] at *
      by_cases h : a.id = account_id <;> simp [h, ih]

/-- C1: `update_password` either commits both column writes — on success the
matching row holds both new hash values and the database equals the fully
updated state — or rolls back: on any failure (at the statement, between
the two column writes, or at commit) it returns failure and the database is
exactly its pre-call value.  Row by row, either both fields are the new
values or the row is untouched. -/
theorem update_password_atomic (db : List Account) (account_id : Nat)
    (lh th : String) (failure : UpdateFailure) :
    ((update_password db account_id lh th failure).1 = true →
      (update_password db account_id lh th failure).2
        = db.map (fun a => if a.id = account_id then
            { a with password := lh, passhash := th } else a)) ∧
    ((update_password db account_id lh th failure).1 = true →
      ∀ a ∈ (update_password db account_id lh th failure).2,
        a.id = account_id → a.password = lh ∧ a.passhash = th) ∧
    ((update_password db account_id lh th failure).1 = false →
      (update_password db account_id lh th failure).2 = db) ∧
    (∀ i, ∀ h1 : i < (update_password db account_id lh th failure).2.length,
      ∀ h2 : i < db.length,
      (update_password db account_id lh th failure).2.get ⟨i, h1⟩ = db.get ⟨i, h2⟩ ∨
        (((update_password db account_id lh th failure).2.get ⟨i, h1⟩).password = lh ∧
         ((update_password db account_id lh th failure).2.get ⟨i, h1⟩).passhash = th)) := by
  cases failure
  case atExecute =>
    refine ⟨?_, ?_, ?_, ?_⟩
    · exact fun h => nomatch h
    · exact fun h => nomatch h
    · exact fun _ => rfl
    · exact fun i h1 h2 => Or.inl rfl
  case afterFirstField =>
    refine ⟨?_, ?_, ?_, ?_⟩
    · exact fun h => nomatch h
    · exact fun h => nomatch h
    · exact fun _ => rfl
    · exact fun i h1 h2 => Or.inl rfl
  case atCommit =>
    refine ⟨?_, ?_, ?_, ?_⟩
    · exact fun h => nomatch h
    · exact fun h => nomatch h
    · exact fun _ => rfl
    · exact fun i h1 h2 => Or.inl rfl
  case ok =>
    have hmap : (update_password db account_id lh th .ok).2
        = db.map (fun a => if a.id = account_id then
            { a with password := lh, passhash := th } else a) := by
      show setPasshashField (setPasswordField db account_id lh) account_id th = _
      exact setFields_eq_map db account_id lh th
    refine ⟨fun _ => hmap, ?_, ?_, ?_⟩
    · intro _ a ha hid
      rw [hmap] at ha
      rw [List.mem_map] at ha
      obtain ⟨a0, _, rfl⟩ := ha
      by_cases h : a0.id = account_id
      · simp [h]
      · simp only [if_neg h] at hid ⊢
        exact absurd hid h
    · exact fun h => nomatch h
    · intro i h1 h2
      simp only [List.get_eq_getElem, hmap, List.getElem_map]
      by_cases h : db[i].id = account_id
      · exact Or.inr (by simp [h])
      · exact Or.inl (by simp [h])

/-- Witness for C1: a mid-update failure leaves the single row untouched;
a clean run updates both fields. -/
theorem update_password_atomic_witness :
    (update_password ([⟨1, "Foo", false, "x", "y"⟩] : List Account)
        1 "L" "T" .afterFirstField).2 = [⟨1, "Foo", false, "x", "y"⟩] ∧
    (update_password ([⟨1, "Foo", false, "x", "y"⟩] : List Account)
        1 "L" "T" .ok).2 = [⟨1, "Foo", false, "L", "T"⟩] := by
  have hfail := update_password_atomic
    ([⟨1, "Foo", false, "x", "y"⟩] : List Account) 1 "L" "T" .afterFirstField
  have hok := update_password_atomic
    ([⟨1, "Foo", false, "x", "y"⟩] : List Account) 1 "L" "T" .ok
  refine ⟨hfail.2.2.1 rfl, ?_⟩
  rw [hok.1 rfl]
  decide

/-- A two-row account table used to instantiate the interactive-phase
theorems: `Alice` is inactive, `Bob` is active. -/
def demoDb : List Account :=
  [⟨1, "Alice", true, "x", "y"⟩, ⟨2, "Bob", false, "x", "y"⟩]

/-- A concrete stand-in for the SHA-256 digest function, used only to
instantiate theorems whose statements hold for every digest function. -/
def demoSha : List Nat → List Nat := fun _ => [0]

/-- C8: at the dry-run confirmation the default depends on the account
status.  Inactive account: an empty (stripped) response or any response not
starting with `y` aborts with exit 0 and the database untouched.  Active
account: an empty response proceeds with the reset, and only a response
starting with `n` aborts. -/
theorem dry_run_default_by_status (db : List Account) (account_id : Nat)
    (exact_username response password : String)
    (sha256 : List Nat → List Nat) (salt1 salt2 : Nat)
    (failure : UpdateFailure) (timestamp : String) :
    ((pyLower (pyStrip response) = "" ∨
        (pyLower (pyStrip response)).data.head? ≠ some 'y') →
      mainTail db account_id exact_username true response password
          sha256 salt1 salt2 failure timestamp
        = ⟨.abortedExit0, db, []⟩) ∧
    (pyStrip response = "" →
      (mainTail db account_id exact_username false response password
          sha256 salt1 salt2 failure timestamp).outcome ≠ .abortedExit0) ∧
    ((pyLower (pyStrip response)).data.head? = some 'n' →
      mainTail db account_id exact_username false response password
          sha256 salt1 salt2 failure timestamp
        = ⟨.abortedExit0, db, []⟩) ∧
    ((mainTail db account_id exact_username false response password
          sha256 salt1 salt2 failure timestamp).outcome = .abortedExit0 →
      (pyLower (pyStrip response)).data.head? = some 'n') := by
  refine ⟨?_, ?_, ?_, ?_⟩
  · intro h
    have habort : dryRunAborts true response = true := by
      cases hd : (pyLower (pyStrip response)).data with
      | nil => simp [dryRunAborts, hd]
      | cons c cs =>
          rcases h with he | hh
          · have := congrArg String.data he
            rw [hd] at this
            cases this
          · rw [hd] at hh
            have hc : c ≠ 'y' := fun hcy => hh (by simp [hcy])
            simp [dryRunAborts, hd, hc]
    simp [mainTail, habort]
  · intro h
    have habort : dryRunAborts false response = false := by
      have hl : pyLower (pyStrip response) = "" := by rw [h]; rfl
      have hd : (pyLower (pyStrip response)).data = [] := by
        rw [hl]
      simp [dryRunAborts, hd]
    by_cases hres : (update_password db account_id
        (renderHash (generate_launcher_hash sha256 exact_username password salt1))
        (renderHash (generate_testclient_hash password salt2)) failure).1
    · simp [mainTail, habort, hres]
    · simp [mainTail, habort, hres]
  · intro h
    cases hd : (pyLower (pyStrip response)).data with
    | nil => rw [hd] at h; simp at h
    | cons c cs =>
        rw [hd] at h
        have hc : c = 'n' := by simpa using h
        have habort : dryRunAborts false response = true := by
          simp [dryRunAborts, hd, hc]
        simp [mainTail, habort]
  · intro h
    by_cases habort : dryRunAborts false response = true
    · cases hd : (pyLower (pyStrip response)).data with
      | nil => simp [dryRunAborts, hd] at habort
      | cons c cs =>
          simp only [dryRunAborts, hd] at habort
          have hc : c = 'n' := by
            simpa using habort
          simp [hc]
    · exfalso
      have habort2 : dryRunAborts false response = false := by
        simpa using habort
      by_cases hres : (update_password db account_id
          (renderHash (generate_launcher_hash sha256 exact_username password salt1))
          (renderHash (generate_testclient_hash password salt2)) failure).1
      · simp [mainTail, habort2, hres] at h
      · simp [mainTail, habort2, hres] at h

/-- Witness for C8: inactive `Alice` with a plain Enter aborts with the
database untouched; active `Bob` with a plain Enter proceeds; active `Bob`
answering `No` aborts. -/
theorem dry_run_default_by_status_witness :
    mainTail demoDb 1 "Alice" true "" "secret1" demoSha 0 0 .ok "ts"
      = ⟨.abortedExit0, demoDb, []⟩ ∧
    (mainTail demoDb 2 "Bob" false "" "secret1" demoSha 0 0 .ok "ts").outcome
      ≠ .abortedExit0 ∧
    mainTail demoDb 2 "Bob" false " No" "secret1" demoSha 0 0 .ok "ts"
      = ⟨.abortedExit0, demoDb, []⟩ := by
  have ha := dry_run_default_by_status demoDb 1 "Alice" "" "secret1" demoSha 0 0 .ok "ts"
  have hb := dry_run_default_by_status demoDb 2 "Bob" "" "secret1" demoSha 0 0 .ok "ts"
  have hc := dry_run_default_by_status demoDb 2 "Bob" " No" "secret1" demoSha 0 0 .ok "ts"
  exact ⟨ha.1 (Or.inl (by decide)), hb.2.1 (by decide), hc.2.2.1 (by decide)⟩

lemma mainTail_eq_cases (db : List Account) (account_id : Nat)
    (exact_username : String) (is_inactive : Bool) (response password : String)
    (sha256 : List Nat → List Nat) (salt1 salt2 : Nat) (failure : UpdateFailure)
    (timestamp : String) :
    mainTail db account_id exact_username is_inactive response password
        sha256 salt1 salt2 failure timestamp
      = if dryRunAborts is_inactive response then ⟨.abortedExit0, db, []⟩
        else if failure = .ok then
          ⟨.successExit0,
            (update_password db account_id
              (renderHash (generate_launcher_hash sha256 exact_username password salt1))
              (renderHash (generate_testclient_hash password salt2)) failure).2,
            [auditRecord timestamp account_id exact_username]⟩
        else ⟨.failedExit1, db, []⟩ := by
  by_cases habort : dryRunAborts is_inactive response
  · simp [mainTail, habort]
  · cases failure <;>
      simp [mainTail, habort, update_password, executeUpdate]

/-- C9: the audit log gains a record exactly when `update_password` succeeds
(never on an abort, a failed update, or a fatal path); the record is one
line built from the timestamp, the account ID and the exact-case username,
and is entirely independent of the plaintext password and of both hash
values. -/
theorem audit_log_success_only (db : List Account) (account_id : Nat)
    (exact_username : String) (is_inactive : Bool) (response password : String)
    (sha256 : List Nat → List Nat) (salt1 salt2 : Nat) (failure : UpdateFailure)
    (timestamp : String) :
    ((mainTail db account_id exact_username is_inactive response password
        sha256 salt1 salt2 failure timestamp).outcome = .successExit0 ↔
      dryRunAborts is_inactive response = false ∧ failure = .ok) ∧
    ((mainTail db account_id exact_username is_inactive response password
        sha256 salt1 salt2 failure timestamp).outcome = .successExit0 →
      (mainTail db account_id exact_username is_inactive response password
        sha256 salt1 salt2 failure timestamp).audit
        = [auditRecord timestamp account_id exact_username]) ∧
    ((mainTail db account_id exact_username is_inactive response password
        sha256 salt1 salt2 failure timestamp).outcome ≠ .successExit0 →
      (mainTail db account_id exact_username is_inactive response password
        sha256 salt1 salt2 failure timestamp).audit = []) ∧
    (mainTail db account_id exact_username is_inactive response password
        sha256 salt1 salt2 failure timestamp).audit.length ≤ 1 ∧
    (∃ m, auditRecord timestamp account_id exact_username = timestamp ++ m) ∧
    (∃ l m, auditRecord timestamp account_id exact_username
      = l ++ toString account_id ++ m) ∧
    (∃ l m, auditRecord timestamp account_id exact_username
      = l ++ exact_username ++ m) ∧
    (∀ (password2 : String) (sha2 : List Nat → List Nat) (salt1b salt2b : Nat),
      (mainTail db account_id exact_username is_inactive response password2
        sha2 salt1b salt2b failure timestamp).audit
        = (mainTail db account_id exact_username is_inactive response password
            sha256 salt1 salt2 failure timestamp).audit) := by
  refine ⟨?_, ?_, ?_, ?_, ?_, ?_, ?_, ?_⟩
  · rw [mainTail_eq_cases]
    by_cases habort : dryRunAborts is_inactive response <;>
      cases failure <;> simp [habort]
  · rw [mainTail_eq_cases]
    by_cases habort : dryRunAborts is_inactive response <;>
      cases failure <;> simp [habort]
  · rw [mainTail_eq_cases]
    by_cases habort : dryRunAborts is_inactive response <;>
      cases failure <;> simp [habort]
  · rw [mainTail_eq_cases]
    by_cases habort : dryRunAborts is_inactive response <;>
      cases failure <;> simp [habort]
  · exact ⟨" - " ++ auditMessage account_id exact_username,
      by simp [auditRecord, String.append_assoc]⟩
  · refine ⟨timestamp ++ " - " ++ "Password reset for account ID: ",
      ", username: " ++ exact_username, ?_⟩
    simp only [auditRecord, auditMessage, String.append_assoc]
  · refine ⟨timestamp ++ " - " ++ "Password reset for account ID: "
        ++ toString account_id ++ ", username: ", "", ?_⟩
    simp only [auditRecord, auditMessage, String.append_assoc]
    rw [show (", username: " ++ exact_username : String)
      = ", username: " ++ (exact_username ++ "") from by
        rw [String.append_empty]]
  · intro password2 sha2 salt1b salt2b
    rw [mainTail_eq_cases, mainTail_eq_cases]
    by_cases habort : dryRunAborts is_inactive response <;>
      cases failure <;> simp [habort]

/-- Witness for C9: with active `Bob`, a clean update appends exactly the
one audit line; a commit failure appends nothing. -/
theorem audit_log_success_only_witness :
    (mainTail demoDb 2 "Bob" false "" "secret1" demoSha 0 0 .ok "ts").audit
      = [auditRecord "ts" 2 "Bob"] ∧
    (mainTail demoDb 2 "Bob" false "" "secret1" demoSha 0 0 .atCommit "ts").audit
      = [] := by
  have h1 := audit_log_success_only demoDb 2 "Bob" false "" "secret1" demoSha 0 0 .ok "ts"
  have h2 := audit_log_success_only demoDb 2 "Bob" false "" "secret1" demoSha 0 0 .atCommit "ts"
  exact ⟨h1.2.1 (by decide), h2.2.2.1 (by decide)⟩

lemma connectLoop_trace_length_le (env : ConnectEnv) :
    ∀ (remaining : Nat) (params : ConnParams) (attempt : Nat),
      (connectLoop env params attempt remaining).2.length ≤ remaining := by
  intro remaining
  induction remaining with
  | zero => intro params attempt; simp [connectLoop]
  | succ r ih =>
      intro params attempt
      cases h : env.attemptResult attempt <;>
        simp [connectLoop, h] <;>
        exact ih _ _

lemma connectLoop_all_recoverable (env : ConnectEnv) :
    ∀ (remaining : Nat) (params : ConnParams) (attempt : Nat),
      (∀ k, attempt ≤ k → k < attempt + remaining →
        recoverableResult (env.attemptResult k) = true) →
      (connectLoop env params attempt remaining).1 = .fatalExit 1 ∧
      (connectLoop env params attempt remaining).2.length = remaining := by
  intro remaining
  induction remaining with
  | zero => intro params attempt _; simp [connectLoop]
  | succ r ih =>
      intro params attempt hrec
      have hthis : recoverableResult (env.attemptResult attempt) = true :=
        hrec attempt (Nat.le_refl _) (by omega)
      have hnext : ∀ k, attempt + 1 ≤ k → k < attempt + 1 + r →
          recoverableResult (env.attemptResult k) = true :=
        fun k h1 h2 => hrec k (by omega) (by omega)
      cases h : env.attemptResult attempt
      case success => rw [h] at hthis; cases hthis
      case refused => rw [h] at hthis; cases hthis
      case unexpected => rw [h] at hthis; cases hthis
      case dbNotExist =>
          have := ih { params with
            database := resolveDbName (env.dbNameInput attempt) } (attempt + 1) hnext
          simp [connectLoop, h, this.1, this.2]
      case authFailed =>
          have := ih { params with
            password := env.passwordInput attempt } (attempt + 1) hnext
          simp [connectLoop, h, this.1, this.2]
      case otherError =>
          have := ih params (attempt + 1) hnext
          simp [connectLoop, h, this.1, this.2]

/-- C5: `connect_database` makes at most 3 connection attempts, and when the
first three attempts all end in recoverable failures (missing database,
authentication failure, or other transient error) it makes exactly 3
attempts and terminates fatally with exit code 1. -/
theorem connect_database_bounded_attempts (env : ConnectEnv) (host : String)
    (port : Nat) (user database : String) (password : Option String) :
    (connect_database env host port user database password).2.length ≤ 3 ∧
    ((∀ k, k < 3 → recoverableResult (env.attemptResult k) = true) →
      (connect_database env host port user database password).1 = .fatalExit 1 ∧
      (connect_database env host port user database password).2.length = 3) := by
  constructor
  · exact connectLoop_trace_length_le env 3 _ 0
  · intro h
    exact connectLoop_all_recoverable env 3 _ 0 (fun k _ hk => h k (by omega))

/-- Witness for C5: three authentication failures in a row exhaust the 3
attempts and exit fatally with code 1. -/
theorem connect_database_bounded_attempts_witness :
    (connect_database ⟨fun _ => .authFailed, fun _ => "", fun _ => "pw"⟩
        "localhost" 5432 "psforever" "psforever" none).1 = .fatalExit 1 ∧
    (connect_database ⟨fun _ => .authFailed, fun _ => "", fun _ => "pw"⟩
        "localhost" 5432 "psforever" "psforever" none).2.length = 3 :=
  (connect_database_bounded_attempts ⟨fun _ => .authFailed, fun _ => "", fun _ => "pw"⟩
    "localhost" 5432 "psforever" "psforever" none).2 (fun _ _ => rfl)

lemma connectLoop_trace_head (env : ConnectEnv) (params : ConnParams)
    (attempt r : Nat) :
    (connectLoop env params attempt (r + 1)).2.head? = some params := by
  cases h : env.attemptResult attempt <;> simp [connectLoop, h]

/-- C10: when a connection attempt fails because the database does not exist
and the operator's re-prompt entry strips to the empty string, the next
attempt is made (no further re-prompt, no abort) and it uses the database
name `psforever`. -/
theorem connect_empty_dbname_default (env : ConnectEnv) (params : ConnParams)
    (a r : Nat) (hres : env.attemptResult a = .dbNotExist)
    (hin : pyStrip (env.dbNameInput a) = "") :
    ∃ q, (connectLoop env params a (r + 2)).2.get? 1 = some q ∧
      q.database = "psforever" := by
  have hname : resolveDbName (env.dbNameInput a) = "psforever" := by
    simp [resolveDbName, hin]
  refine ⟨{ params with database := "psforever" }, ?_, rfl⟩
  have hstep : (connectLoop env params a (r + 2)).2
      = params :: (connectLoop env
          { params with database := "psforever" } (a + 1) (r + 1)).2 := by
    simp [connectLoop, hres, hname]
  rw [hstep]
  have hhead := connectLoop_trace_head env
    { params with database := "psforever" } (a + 1) r
  rw [List.head?_eq_getElem?] at hhead
  simpa using hhead

/-- Witness for C10: a whitespace-only database-name entry makes the second
attempt run against `psforever`. -/
theorem connect_empty_dbname_default_witness :
    ∃ q, (connectLoop ⟨fun _ => .dbNotExist, fun _ => "  ", fun _ => "pw"⟩
        ⟨"localhost", 5432, "psforever", "olddb", "psforever"⟩ 0 3).2.get? 1
      = some q ∧ q.database = "psforever" :=
  connect_empty_dbname_default
    ⟨fun _ => .dbNotExist, fun _ => "  ", fun _ => "pw"⟩
    ⟨"localhost", 5432, "psforever", "olddb", "psforever"⟩ 0 1 rfl (by decide)
